import Mathlib

/-!
Shallow embedding of the audio-analysis core of `src/app/FileInput.tsx`
(tempo estimation, downbeat location, key estimation, banded waveform
generation, and the DFT-based spectral primitive).

JavaScript `number` values are modelled by `JSVal`: a real number, the
IEEE NaN produced by `0/0`, or `-Infinity` (which appears only as the
initial accumulator of the key-correlation scan).  Comparisons against
NaN are false, exactly as in IEEE-754 / JavaScript.  Positive infinity
never arises in the embedded code: every division whose denominator can
be zero has a zero numerator there (yielding NaN), so it is not
represented; the handful of arithmetic cases on `neginf` that the
embedded code can never reach are mapped to `nan` for totality and are
marked as unreachable below.

Exact rational/integer arithmetic of the source (interval histograms,
index computations) is embedded over `ℚ`/`ℤ`/`ℕ` so that it is
computable; floating-point round-off of the source's `number` type is
idealised away, as usual for a shallow embedding.
-/

open scoped Classical

/-- A JavaScript `number` as it occurs in the embedded code: a finite
real, NaN, or `-Infinity`. -/
inductive JSVal where
  | nan : JSVal
  | neginf : JSVal
  | fin : ℝ → JSVal
deriving Inhabited

namespace JSVal

/-- JS `+`.  NaN propagates; `-∞ + finite = -∞`. -/
noncomputable def jsAdd : JSVal → JSVal → JSVal
  | nan, _ => nan
  | _, nan => nan
  | fin a, fin b => fin (a + b)
  | neginf, _ => neginf
  | _, neginf => neginf

/-- JS `-`.  NaN propagates.  (`neginf` operands never reach `-` in the
embedded code; they are mapped to the NaN-like default.) -/
noncomputable def jsSub : JSVal → JSVal → JSVal
  | fin a, fin b => fin (a - b)
  | _, _ => nan

/-- JS `*`.  NaN propagates.  (`neginf` operands never reach `*` in the
embedded code.) -/
noncomputable def jsMul : JSVal → JSVal → JSVal
  | fin a, fin b => fin (a * b)
  | _, _ => nan

/-- JS `/`.  A zero denominator yields NaN: in the embedded code every
division whose denominator can be zero has numerator zero there
(`0/0 = NaN`), so infinities cannot arise. -/
noncomputable def jsDiv : JSVal → JSVal → JSVal
  | fin a, fin b => if b = 0 then nan else fin (a / b)
  | _, _ => nan

/-- JS `>` : any comparison with NaN is false; every finite number
exceeds `-Infinity`. -/
noncomputable def jsGt : JSVal → JSVal → Bool
  | nan, _ => false
  | _, nan => false
  | fin a, fin b => decide (b < a)
  | fin _, neginf => true
  | neginf, _ => false

/-- JS `Math.min`: NaN if either argument is NaN. -/
noncomputable def jsMin : JSVal → JSVal → JSVal
  | nan, _ => nan
  | _, nan => nan
  | fin a, fin b => fin (min a b)
  | neginf, _ => neginf
  | _, neginf => neginf

/-- JS `Math.max`: NaN if either argument is NaN. -/
noncomputable def jsMax : JSVal → JSVal → JSVal
  | nan, _ => nan
  | _, nan => nan
  | fin a, fin b => fin (max a b)
  | neginf, fin b => fin b
  | fin a, neginf => fin a
  | neginf, neginf => neginf

/-- JS `Math.sqrt`: NaN on NaN and on negative arguments. -/
noncomputable def jsSqrt : JSVal → JSVal
  | nan => nan
  | neginf => nan
  | fin a => if a < 0 then nan else fin (Real.sqrt a)

/-- JS `Math.floor` (NaN-propagating). -/
noncomputable def jsFloor : JSVal → JSVal
  | nan => nan
  | neginf => neginf
  | fin a => fin (⌊a⌋ : ℝ)

end JSVal

open JSVal

/-- Index into a list of JS values; a JS out-of-bounds read yields
`undefined`, which behaves like NaN in every comparison and arithmetic
operation the embedded code performs on it. -/
noncomputable def jsGet (l : List JSVal) (i : ℕ) : JSVal := (l.get? i).getD JSVal.nan

/-- Index into a list of reals (always-in-bounds accesses of the source;
the default is never observed there). -/
def realGet (l : List ℝ) (i : ℕ) : ℝ := l.getD i 0

/-- A decoded PCM buffer: positive sample rate in Hz and the analysis
channel's samples (channel 0 of the `AudioBuffer`). -/
structure SampleBuffer where
  sampleRate : ℕ
  samples : List ℝ

namespace SampleBuffer

def length (b : SampleBuffer) : ℕ := b.samples.length

end SampleBuffer

/-! ### Tempo Estimator: BPM histogram stage (`detectBPM`, lines 126-168)

The inter-peak intervals are integers (differences of sample indices)
and the histogram arithmetic (`60·sampleRate/interval`, `Math.round`,
range tests) is exact, so this stage is embedded computably over `ℚ`. -/

/-- JS `Math.round` on an exact value: `Math.round x = ⌊x + 0.5⌋`. -/
def jsRoundQ (q : ℚ) : ℤ := ⌊q + 1/2⌋

/-- `minBPM` of `detectBPM`. -/
def minBPM : ℤ := 80

/-- `maxBPM` of `detectBPM`. -/
def maxBPM : ℤ := 175

/-- `minInterval = Math.floor(sampleRate * 60 / maxBPM)` (175 BPM). -/
def minIntervalFor (sampleRate : ℕ) : ℕ := sampleRate * 60 / 175

/-- `maxInterval = Math.floor(sampleRate * 60 / minBPM)` (80 BPM). -/
def maxIntervalFor (sampleRate : ℕ) : ℕ := sampleRate * 60 / 80

/-- `bpmHistogram[key] = (bpmHistogram[key] || 0) + w` on the histogram
object, represented as an association list in insertion order. -/
def histAdd (h : List (ℤ × ℚ)) (key : ℤ) (w : ℚ) : List (ℤ × ℚ) :=
  if h.any (fun p => p.1 = key) then
    h.map (fun p => if p.1 = key then (p.1, p.2 + w) else p)
  else
    h ++ [(key, w)]

/-- The accumulated weight of a histogram bin (0 if the key is absent). -/
def histLookup (h : List (ℤ × ℚ)) (key : ℤ) : ℚ :=
  match h.find? (fun p => p.1 = key) with
  | some p => p.2
  | none => 0

/-- One iteration of the `for (const interval of intervals)` loop of
`detectBPM`: intervals outside `[minInterval, maxInterval]` are skipped
entirely; an in-range interval casts a full vote at `Math.round(bpm)`
and half votes at `Math.round(bpm*2)` and `Math.round(bpm/2)`, each
only when the rounded value lies within `[minBPM, maxBPM]`. -/
def histStep (sampleRate : ℕ) (h : List (ℤ × ℚ)) (interval : ℤ) : List (ℤ × ℚ) :=
  if (minIntervalFor sampleRate : ℤ) ≤ interval ∧ interval ≤ (maxIntervalFor sampleRate : ℤ) then
    let bpm : ℚ := (60 * sampleRate : ℚ) / (interval : ℚ)
    let roundedBPM := jsRoundQ bpm
    let halfBPM := jsRoundQ (bpm * 2)
    let doubleBPM := jsRoundQ (bpm / 2)
    let h₁ := if minBPM ≤ roundedBPM ∧ roundedBPM ≤ maxBPM then histAdd h roundedBPM 1 else h
    let h₂ := if minBPM ≤ halfBPM ∧ halfBPM ≤ maxBPM then histAdd h₁ halfBPM (1/2) else h₁
    if minBPM ≤ doubleBPM ∧ doubleBPM ≤ maxBPM then histAdd h₂ doubleBPM (1/2) else h₂
  else h

/-- The BPM histogram built from the inter-peak intervals
(`detectBPM`, lines 133-154). -/
def buildBpmHistogram (sampleRate : ℕ) (intervals : List ℤ) : List (ℤ × ℚ) :=
  intervals.foldl (histStep sampleRate) []

/-- Insertion into a key-sorted association list. -/
def insertByKey (p : ℤ × ℚ) : List (ℤ × ℚ) → List (ℤ × ℚ)
  | [] => [p]
  | q :: t => if p.1 ≤ q.1 then p :: q :: t else q :: insertByKey p t

/-- `Object.entries(bpmHistogram)`: JavaScript enumerates integer-like
object keys in ascending numeric order, so the entries are the
association list sorted by key. -/
def histEntries (h : List (ℤ × ℚ)) : List (ℤ × ℚ) := h.foldr insertByKey []

/-- The `for (const [bpm, count] of Object.entries(...))` scan of
`detectBPM` (lines 156-165): keep the first entry whose count strictly
exceeds the running maximum; `detectedBPM` starts at the default 120. -/
def pickBpm (h : List (ℤ × ℚ)) : ℤ :=
  ((histEntries h).foldl
    (fun st p => if p.2 > st.1 then (p.2, p.1) else st)
    ((0 : ℚ), (120 : ℤ))).2

/-! ### Tempo Estimator: band-pass, envelope, peak detection
(`detectBPM`, lines 15-124) -/

/-- One-pole high-pass filter (cutoff 40 Hz), lines 26-38: state is
`(hpPrevInput, hpPrevOutput, outputs so far)`. -/
noncomputable def hpFiltered (sr : ℕ) (samples : List ℝ) : List ℝ :=
  let hpRC : ℝ := 1 / (2 * Real.pi * 40)
  let hpAlpha : ℝ := 1 / (1 + hpRC * sr)
  (samples.foldl
    (fun st x =>
      let out := hpAlpha * (st.2.1 + x - st.1)
      (x, out, st.2.2 ++ [out]))
    ((0 : ℝ), (0 : ℝ), ([] : List ℝ))).2.2

/-- One-pole low-pass filter (cutoff 150 Hz), lines 40-49: state is
`(lpPrevOutput, outputs so far)`. -/
noncomputable def lpFiltered (sr : ℕ) (xs : List ℝ) : List ℝ :=
  let lpRC : ℝ := 1 / (2 * Real.pi * 150)
  let lpAlpha : ℝ := 1 / (1 + lpRC * sr)
  (xs.foldl
    (fun st x =>
      let out := lpAlpha * x + (1 - lpAlpha) * st.1
      (out, st.2 ++ [out]))
    ((0 : ℝ), ([] : List ℝ))).2

/-- Asymmetric envelope follower (attack 1 ms, release 100 ms),
lines 51-67: state is `(envelopeValue, outputs so far)`. -/
noncomputable def bpmEnvelope (sr : ℕ) (xs : List ℝ) : List ℝ :=
  let attackCoeff : ℝ := Real.exp (-1 / (0.001 * sr))
  let releaseCoeff : ℝ := Real.exp (-1 / (0.1 * sr))
  (xs.foldl
    (fun st x =>
      let absValue := |x|
      let env :=
        if absValue > st.1 then absValue + (st.1 - absValue) * attackCoeff
        else absValue + (st.1 - absValue) * releaseCoeff
      (env, st.2 ++ [env]))
    ((0 : ℝ), ([] : List ℝ))).2

/-- Onset-peak detection over the envelope (`detectBPM`, lines 69-114):
adaptive global/local threshold, strict local maximum versus both
neighbours, and a 100 ms refractory window since the last accepted
peak.  The fold state is `(peaks, lastPeakIndex, lastThreshold)`. -/
noncomputable def detectPeaks (buf : SampleBuffer) : List ℕ :=
  let sr := buf.sampleRate
  let length := buf.samples.length
  let envelope := bpmEnvelope sr (lpFiltered sr (hpFiltered sr buf.samples))
  let windowSize := sr / 10
  let sampleStep := max 1 (length / 10000)
  let sampledIdx := (List.range length).filter (fun i => decide (i % sampleStep = 0))
  let sum : ℝ := (sampledIdx.map (fun i => realGet envelope i)).sum
  let maxVal : ℝ :=
    sampledIdx.foldl (fun m i => if realGet envelope i > m then realGet envelope i else m) 0
  let sampleCount := sampledIdx.length
  let mean := jsDiv (JSVal.fin sum) (JSVal.fin sampleCount)
  let globalThreshold := jsAdd mean (jsMul (jsSub (JSVal.fin maxVal) mean) (JSVal.fin 0.3))
  let hopSize := max 1 (sr / 100)
  let localWindowSize := windowSize / 2
  let envAt : ℤ → JSVal := fun j =>
    if 0 ≤ j ∧ j < (length : ℤ) then JSVal.fin (realGet envelope j.toNat) else JSVal.nan
  let candidates := (List.range length).filter
    (fun i => decide (windowSize ≤ i ∧ (i : ℤ) < (length : ℤ) - windowSize ∧
                      (i - windowSize) % hopSize = 0))
  (candidates.foldl
    (fun st i =>
      let thr :=
        if i % (hopSize * 20) = 0 then
          let lo := i - localWindowSize
          let hi := min length (i + localWindowSize)
          let localWindow := (envelope.drop lo).take (hi - lo)
          let localMean := jsDiv (JSVal.fin localWindow.sum) (JSVal.fin localWindow.length)
          jsMax globalThreshold (jsMul localMean (JSVal.fin 1.5))
        else st.2.2
      if jsGt (envAt i) thr && jsGt (envAt i) (envAt ((i : ℤ) - 1)) &&
         jsGt (envAt i) (envAt ((min (length - 1) (i + 1) : ℕ) : ℤ)) &&
         decide ((i : ℤ) - st.2.1 > (windowSize : ℤ))
      then (st.1 ++ [i], ((i : ℤ), thr))
      else (st.1, (st.2.1, thr)))
    (([] : List ℕ), (-(windowSize : ℤ), globalThreshold))).1

/-- Inter-peak sample intervals (`detectBPM`, lines 120-124). -/
def peakIntervals (peaks : List ℕ) : List ℤ :=
  (peaks.drop 1).zipWith (fun a b => (a : ℤ) - (b : ℤ)) peaks

/-- `detectBPM`: with fewer than 2 onset peaks return the default 120;
otherwise the winning histogram bin, defensively clamped to
`[80, 175]` (lines 116-168). -/
noncomputable def detectBPM (buf : SampleBuffer) : ℤ :=
  let peaks := detectPeaks buf
  if peaks.length < 2 then 120
  else
    let intervals := peakIntervals peaks
    let detectedBPM := pickBpm (buildBpmHistogram buf.sampleRate intervals)
    max 80 (min 175 detectedBPM)

/-! ### Downbeat Locator (`detectDownbeat`, lines 171-215) -/

/-- `windowSize = Math.floor(sampleRate * 0.023)` (~23 ms). -/
def downbeatWindowSize (sr : ℕ) : ℕ := sr * 23 / 1000

/-- `hopSize = Math.max(1, Math.floor(windowSize / 4))`. -/
def downbeatHop (sr : ℕ) : ℕ := max 1 (downbeatWindowSize sr / 4)

/-- Short-time mean-squared energies over ~23 ms windows with 25 % hop,
restricted to the first 30 seconds (lines 178-193).  A zero-width
window (possible only for sample rates below 44 Hz) divides `0/0` and
stores NaN, as the source does. -/
noncomputable def downbeatEnergies (buf : SampleBuffer) : List JSVal :=
  let sr := buf.sampleRate
  let length := buf.samples.length
  let windowSize := downbeatWindowSize sr
  let hopSize := downbeatHop sr
  let maxSamples := min length (sr * 30)
  ((List.range maxSamples).filter
      (fun i => decide (i % hopSize = 0 ∧ (i : ℤ) < (maxSamples : ℤ) - windowSize))).map
    (fun i =>
      let e := min (i + windowSize) maxSamples
      let sum : ℝ := (((buf.samples.drop i).take (e - i)).map (fun x => x * x)).sum
      jsDiv (JSVal.fin sum) (JSVal.fin ((e - i : ℕ) : ℝ)))

/-- Baseline: mean energy of the first ≤ 100 windows (lines 200-201). -/
noncomputable def downbeatBaseline (buf : SampleBuffer) : JSVal :=
  let energy := downbeatEnergies buf
  let baselineSize := min 100 energy.length
  jsDiv ((energy.take baselineSize).foldl jsAdd (JSVal.fin 0))
    (JSVal.fin ((baselineSize : ℕ) : ℝ))

/-- The strong-onset test of window `i` (line 206):
`energy[i] > 2·baseline` and `energy[i] - energy[i-1] > 0.3·baseline`. -/
noncomputable def downbeatCond (buf : SampleBuffer) (i : ℕ) : Bool :=
  let energy := downbeatEnergies buf
  let baseline := downbeatBaseline buf
  let threshold := jsMul baseline (JSVal.fin 2)
  jsGt (jsGet energy i) threshold &&
    jsGt (jsSub (jsGet energy i) (jsGet energy (i - 1))) (jsMul baseline (JSVal.fin 0.3))

/-- `detectDownbeat`: the first window index `i > 0` passing the
strong-onset test is converted back to seconds (`i·hop/sampleRate`);
with fewer than two windows, or no qualifying window, the result is 0.
The `bpm` argument is accepted but never used (lines 171-215). -/
noncomputable def detectDownbeat (buf : SampleBuffer) (bpm : ℝ) : ℝ :=
  let energy := downbeatEnergies buf
  if energy.length < 2 then 0
  else
    match (List.range energy.length).find? (fun i => decide (0 < i) && downbeatCond buf i) with
    | some i => ((i * downbeatHop buf.sampleRate : ℕ) : ℝ) / (buf.sampleRate : ℝ)
    | none => 0

/-! ### Spectral Primitive (`performFFT`, lines 501-524) -/

/-- Real part of DFT bin `k`: `Σₙ s[n]·cos(2πkn/N)`. -/
noncomputable def dftRe (s : List ℝ) (k : ℕ) : ℝ :=
  (List.range s.length).foldl
    (fun a n => a + realGet s n * Real.cos (2 * Real.pi * k * n / s.length)) 0

/-- Imaginary part of DFT bin `k`: `-Σₙ s[n]·sin(2πkn/N)`. -/
noncomputable def dftIm (s : List ℝ) (k : ℕ) : ℝ :=
  (List.range s.length).foldl
    (fun a n => a - realGet s n * Real.sin (2 * Real.pi * k * n / s.length)) 0

/-- DFT magnitude at bin `k`: `√(real² + imag²)`. -/
noncomputable def fftMag (s : List ℝ) (k : ℕ) : ℝ :=
  Real.sqrt (dftRe s k * dftRe s k + dftIm s k * dftIm s k)

/-- The array-filling loop of `performFFT` run over bins
`k = 0, …, m-1`, starting from the zero-initialised `Float32Array`:
each iteration stores `fft[k] = mag k` and, for `0 < k < N/2`, mirrors
it into `fft[N-k]`.  (The JS loop bound `k < N/2` allows
`⌈N/2⌉ = (N+1)/2` iterations; the guard `k < N/2` is `2k < N`.) -/
noncomputable def performFFTAux (s : List ℝ) (m : ℕ) : List ℝ :=
  (List.range m).foldl
    (fun fft k =>
      let fft1 := fft.set k (fftMag s k)
      if 0 < k ∧ 2 * k < s.length then fft1.set (s.length - k) (fftMag s k) else fft1)
    (List.replicate s.length 0)

/-- `performFFT`: magnitude spectrum with the mirrored upper half. -/
noncomputable def performFFT (s : List ℝ) : List ℝ :=
  performFFTAux s ((s.length + 1) / 2)

/-! ### Key Estimator (`detectKey` and helpers, lines 217-380) -/

/-- Krumhansl-Schmuckler major profile (line 218). -/
noncomputable def MAJOR_PROFILE : List ℝ :=
  [6.35, 2.23, 3.48, 2.33, 4.38, 4.09, 2.52, 5.19, 2.39, 3.66, 2.29, 2.88]

/-- Krumhansl-Schmuckler minor profile (line 219). -/
noncomputable def MINOR_PROFILE : List ℝ :=
  [6.33, 2.68, 3.52, 5.38, 2.60, 3.53, 2.54, 4.75, 3.98, 2.69, 3.34, 3.17]

/-- Camelot wheel mapping (lines 222-234); note that the key string
`"B"` (B major) has no entry. -/
def CAMELOT_MAP : List (String × String) :=
  [("C", "8B"), ("C#", "3B"), ("Db", "3B"),
   ("D", "10B"), ("D#", "5B"), ("Eb", "5B"),
   ("E", "12B"), ("F", "7B"), ("F#", "2B"), ("Gb", "2B"),
   ("G", "9B"), ("G#", "4B"), ("Ab", "4B"),
   ("A", "11B"), ("A#", "6B"), ("Bb", "6B"),
   ("Cm", "5A"), ("C#m", "12A"), ("Dbm", "12A"),
   ("Dm", "7A"), ("D#m", "2A"), ("Ebm", "2A"),
   ("Em", "9A"), ("Fm", "4A"), ("F#m", "11A"), ("Gbm", "11A"),
   ("Gm", "6A"), ("G#m", "1A"), ("Abm", "1A"),
   ("Am", "8A"), ("A#m", "3A"), ("Bbm", "3A"),
   ("Bm", "10A")]

/-- `CAMELOT_MAP[keyString]` as an optional lookup. -/
def camelotLookup (s : String) : Option String :=
  (CAMELOT_MAP.find? (fun p => p.1 == s)).map (fun p => p.2)

/-- The scale tag of a key estimate. -/
inductive Scale where
  | major : Scale
  | minor : Scale
deriving DecidableEq

/-- Lines 343-345 of `detectKey`: build the key string (`"X"` major /
`"Xm"` minor) and map it through `CAMELOT_MAP`, defaulting to `'8B'`. -/
def camelotFor (key : String) (scale : Scale) : String :=
  let keyString := match scale with
    | Scale.minor => key ++ "m"
    | Scale.major => key
  (camelotLookup keyString).getD "8B"

/-- The 12 canonical pitch-class names (line 311). -/
def keyNames : List String :=
  ["C", "C#", "D", "D#", "E", "F"] ++ ["F#", "G", "G#", "A", "A#", "B"]

/-- Result of a `detectKey` estimate. -/
structure KeyEstimate where
  key : String
  scale : Scale
  camelot : String
deriving DecidableEq

/-- Outcome of one call of the external chroma extractor
(`Meyda.extract`) on a frame: a chroma array, a truthy-but-invalid
result (skipped without fallback), or a thrown error (per-frame
fallback to `calculateChroma`). -/
inductive ExtractResult where
  | ok : List ℝ → ExtractResult
  | invalid : ExtractResult
  | fails : ExtractResult

/-- Fallback chroma computation (`calculateChroma`, lines 351-380):
inline DFT over the frame, keep bins with frequency in (80, 5000) Hz,
convert to fractional MIDI pitch and accumulate the magnitude into
`⌊pitch⌋ mod 12`. -/
noncomputable def calculateChroma (frame : List ℝ) (sampleRate : ℕ) : List ℝ :=
  let fftSize := frame.length
  (List.range ((fftSize + 1) / 2)).foldl
    (fun chroma k =>
      let magnitude := fftMag frame k
      let freq : ℝ := (k * sampleRate : ℕ) / (fftSize : ℝ)
      if 80 < freq ∧ freq < 5000 then
        let midiNote : ℝ := 69 + 12 * Real.logb 2 (freq / 440)
        let chromaBin := (⌊midiNote⌋ % 12).toNat
        chroma.set chromaBin (realGet chroma chromaBin + magnitude)
      else chroma)
    (List.replicate 12 0)

/-- Frame start indices of `detectKey` (line 253):
`i = 0, 2048, 4096, …` while `i < length - frameSize`. -/
def keyFrameStarts (n : ℕ) : List ℕ :=
  (List.range n).filter (fun i => decide ((i : ℤ) < (n : ℤ) - 4096 ∧ i % 2048 = 0))

/-- The analysis frames of `detectKey` (`channelData.slice(i, i + 4096)`). -/
def keyFrames (buf : SampleBuffer) : List (List ℝ) :=
  (keyFrameStarts buf.samples.length).map (fun i => (buf.samples.drop i).take 4096)

/-- Per-frame RMS energy (lines 256-261): `√(Σ frame[j]² / frame.length)`. -/
noncomputable def frameEnergy (frame : List ℝ) : JSVal :=
  jsSqrt (jsDiv (JSVal.fin ((frame.map (fun x => x * x)).sum))
    (JSVal.fin ((frame.length : ℕ) : ℝ)))

/-- `energyFrames` of `detectKey`. -/
noncomputable def keyEnergyFrames (buf : SampleBuffer) : List JSVal :=
  (keyFrames buf).map frameEnergy

/-- `chromaFrames` of `detectKey` (lines 264-274): one entry per frame
whose extraction yields a usable chroma array — via the external
extractor, or via `calculateChroma` when the extractor throws; frames
with a truthy-but-invalid extractor result are skipped (their energies
stay in `energyFrames`, misaligning the pairing exactly as in the
source). -/
noncomputable def keyChromaFrames (extract : List ℝ → ExtractResult)
    (buf : SampleBuffer) : List (List ℝ) :=
  (keyFrames buf).filterMap (fun fr =>
    match extract fr with
    | ExtractResult.ok c => some c
    | ExtractResult.invalid => none
    | ExtractResult.fails => some (calculateChroma fr buf.sampleRate))

/-- `chromaFrames[i][j]` — an out-of-range chroma read is `undefined`,
which behaves as NaN in the arithmetic it feeds. -/
noncomputable def chromaEntry (c : List ℝ) (j : ℕ) : JSVal :=
  match c.get? j with
  | some x => JSVal.fin x
  | none => JSVal.nan

/-- `totalEnergy` of `detectKey` (lines 283-287): the energies of the
first `chromaFrames.length` frames, summed. -/
noncomputable def keyTotalEnergy (extract : List ℝ → ExtractResult)
    (buf : SampleBuffer) : JSVal :=
  let cf := keyChromaFrames extract buf
  let ef := keyEnergyFrames buf
  (List.range cf.length).foldl (fun acc i => jsAdd acc (jsGet ef i)) (JSVal.fin 0)

/-- `weightedChroma[j]` before the division by `totalEnergy`
(lines 282-291). -/
noncomputable def rawWeightedChroma (extract : List ℝ → ExtractResult)
    (buf : SampleBuffer) (j : ℕ) : JSVal :=
  let cf := keyChromaFrames extract buf
  let ef := keyEnergyFrames buf
  (List.range cf.length).foldl
    (fun acc i => jsAdd acc (jsMul (chromaEntry (cf.getD i []) j) (jsGet ef i)))
    (JSVal.fin 0)

/-- `weightedChroma` after `weightedChroma[j] /= totalEnergy`
(lines 293-296); with zero total energy every entry becomes `0/0 = NaN`. -/
noncomputable def keyWeightedChroma (extract : List ℝ → ExtractResult)
    (buf : SampleBuffer) : List JSVal :=
  (List.range 12).map
    (fun j => jsDiv (rawWeightedChroma extract buf j) (keyTotalEnergy extract buf))

/-- `chromaSum` (line 299). -/
noncomputable def keyChromaSum (extract : List ℝ → ExtractResult)
    (buf : SampleBuffer) : JSVal :=
  (keyWeightedChroma extract buf).foldl jsAdd (JSVal.fin 0)

/-- L1 normalisation, skipped unless `chromaSum > 0` (lines 300-304). -/
noncomputable def keyNormalizedChroma (extract : List ℝ → ExtractResult)
    (buf : SampleBuffer) : List JSVal :=
  let wc := keyWeightedChroma extract buf
  let s := keyChromaSum extract buf
  if jsGt s (JSVal.fin 0) then wc.map (fun w => jsDiv w s) else wc

/-- Correlation of the normalised chroma profile against a template at
rotation `keyOffset` (lines 314-319 / 329-334). -/
noncomputable def keyCorrelation (extract : List ℝ → ExtractResult)
    (buf : SampleBuffer) (profile : List ℝ) (keyOffset : ℕ) : JSVal :=
  let nc := keyNormalizedChroma extract buf
  (List.range 12).foldl
    (fun acc i =>
      jsAdd acc (jsMul (jsGet nc ((i + keyOffset) % 12)) (JSVal.fin (realGet profile i))))
    (JSVal.fin 0)

/-- The 24-candidate scan (major rotations 0-11, then minor rotations
0-11) with state `(maxCorrelation, detectedKey, detectedScale)`
initialised to `(-∞, 'C', major)` (lines 306-341). -/
noncomputable def keyScan (extract : List ℝ → ExtractResult)
    (buf : SampleBuffer) : JSVal × String × Scale :=
  let candidates :=
    ((List.range 12).map (fun o => (o, Scale.major))) ++
      ((List.range 12).map (fun o => (o, Scale.minor)))
  candidates.foldl
    (fun st c =>
      let profile := match c.2 with
        | Scale.major => MAJOR_PROFILE
        | Scale.minor => MINOR_PROFILE
      let corr := keyCorrelation extract buf profile c.1
      if jsGt corr st.1 then (corr, keyNames.getD c.1 "C", c.2) else st)
    (JSVal.neginf, "C", Scale.major)

/-- `detectKey`: no usable chroma frames yields the C-major default;
otherwise the winning `(key, scale)` of the correlation scan, with its
Camelot alias (lines 236-348).  The external chroma extractor is an
out-of-scope collaborator, passed as a parameter. -/
noncomputable def detectKey (extract : List ℝ → ExtractResult)
    (buf : SampleBuffer) : KeyEstimate :=
  let cf := keyChromaFrames extract buf
  if cf.length = 0 then ⟨"C", Scale.major, "8B"⟩
  else
    let st := keyScan extract buf
    ⟨st.2.1, st.2.2, camelotFor st.2.1 st.2.2⟩

/-! ### Banded Waveform Generator (`analyzeWaveform`, lines 382-499) -/

/-- A per-pixel waveform segment: three colour channels and an
RMS-based brightness. -/
structure WaveformSegment where
  r : JSVal
  g : JSVal
  b : JSVal
  brightness : JSVal

/-- `startSample = pixel * samplesPerSegment`, with
`samplesPerSegment = Math.floor(length / canvasWidth)` (lines 398, 415). -/
def segStart (len cw pixel : ℕ) : ℕ := pixel * (len / cw)

/-- `endSample = Math.min(startSample + samplesPerSegment, length)`
(line 416). -/
def segEnd (len cw pixel : ℕ) : ℕ := min (segStart len cw pixel + len / cw) len

/-- Whole-segment RMS (lines 421-425 / 443-448):
`√(Σ channelData[i]² / segmentLength)`; an empty segment divides `0/0`
and produces NaN. -/
noncomputable def segRMS (buf : SampleBuffer) (cw pixel : ℕ) : JSVal :=
  let len := buf.samples.length
  let s := segStart len cw pixel
  let e := segEnd len cw pixel
  jsSqrt (jsDiv (JSVal.fin ((((buf.samples.drop s).take (e - s)).map (fun x => x * x)).sum))
    (JSVal.fin ((e - s : ℕ) : ℝ)))

/-- `brightness = Math.min(1, rms * 2)` (lines 426 / 449). -/
noncomputable def segBrightness (buf : SampleBuffer) (cw pixel : ℕ) : JSVal :=
  jsMin (JSVal.fin 1) (jsMul (segRMS buf cw pixel) (JSVal.fin 2))

/-- The 1024-sample spectral frame of a segment, zero-padded past the
buffer end (lines 438-441). -/
def fftSegmentOf (buf : SampleBuffer) (cw pixel : ℕ) : List ℝ :=
  let len := buf.samples.length
  let s := segStart len cw pixel
  (List.range 1024).map (fun i => if s + i < len then realGet buf.samples (s + i) else 0)

/-- `lowBinMax = Math.floor(250 * 1024 / sampleRate)` (line 409). -/
def lowBinMax (sr : ℕ) : ℕ := 250 * 1024 / sr

/-- `midBinMin = Math.floor(250 * 1024 / sampleRate)` (line 410). -/
def midBinMin (sr : ℕ) : ℕ := 250 * 1024 / sr

/-- `midBinMax = Math.floor(4000 * 1024 / sampleRate)` (line 411). -/
def midBinMax (sr : ℕ) : ℕ := 4000 * 1024 / sr

/-- `highBinMin = Math.floor(4000 * 1024 / sampleRate)` (line 412). -/
def highBinMin (sr : ℕ) : ℕ := 4000 * 1024 / sr

/-- Low/mid/high band magnitude sums over bins 1-511, normalised to
fractions of their total when the total is positive (lines 454-477). -/
noncomputable def segBandEnergies (buf : SampleBuffer) (cw pixel : ℕ) : ℝ × ℝ × ℝ :=
  let sr := buf.sampleRate
  let fftResult := performFFT (fftSegmentOf buf cw pixel)
  let sums := (List.range' 1 511).foldl
    (fun (acc : ℝ × ℝ × ℝ) i =>
      let magnitude := realGet fftResult i
      if i ≤ lowBinMax sr then (acc.1 + magnitude, acc.2.1, acc.2.2)
      else if midBinMin sr ≤ i ∧ i ≤ midBinMax sr then (acc.1, acc.2.1 + magnitude, acc.2.2)
      else if highBinMin sr ≤ i then (acc.1, acc.2.1, acc.2.2 + magnitude)
      else acc)
    ((0 : ℝ), (0 : ℝ), (0 : ℝ))
  let totalEnergy := sums.1 + sums.2.1 + sums.2.2
  if totalEnergy > 0 then (sums.1 / totalEnergy, sums.2.1 / totalEnergy, sums.2.2 / totalEnergy)
  else sums

/-- The segment emitted for one pixel (lines 414-496): the grayscale
RMS path for segments shorter than the 1024-sample frame, otherwise
the spectral-band colouring scaled by `0.3 + 0.7·brightness`. -/
noncomputable def segmentForPixel (buf : SampleBuffer) (cw pixel : ℕ) : WaveformSegment :=
  let len := buf.samples.length
  let s := segStart len cw pixel
  let e := segEnd len cw pixel
  let segLen := e - s
  if segLen < 1024 then
    let brightness := segBrightness buf cw pixel
    let c := jsFloor (jsMul (JSVal.fin 128) brightness)
    ⟨c, c, c, brightness⟩
  else
    let brightness := segBrightness buf cw pixel
    let bands := segBandEnergies buf cw pixel
    let r : ℝ := min 255 (⌊bands.1 * 255 + bands.2.1 * 100⌋ : ℝ)
    let g : ℝ := min 255 (⌊bands.2.1 * 255⌋ : ℝ)
    let b : ℝ := min 255 (⌊bands.2.2 * 255 + bands.2.1 * 50⌋ : ℝ)
    let factor := jsAdd (JSVal.fin 0.3) (jsMul brightness (JSVal.fin 0.7))
    ⟨jsFloor (jsMul (JSVal.fin r) factor), jsFloor (jsMul (JSVal.fin g) factor),
     jsFloor (jsMul (JSVal.fin b) factor), brightness⟩

/-- `analyzeWaveform`: one segment per pixel, in pixel order. -/
noncomputable def analyzeWaveform (buf : SampleBuffer) (canvasWidth : ℕ) : List WaveformSegment :=
  (List.range canvasWidth).map (segmentForPixel buf canvasWidth)

/-! ### Basic facts about the JS value model -/

namespace JSVal

@[simp] theorem jsAdd_nan_right : ∀ x, jsAdd x nan = nan := by
  intro x; cases x <;> rfl

@[simp] theorem jsAdd_nan_left : ∀ x, jsAdd nan x = nan := by
  intro x; cases x <;> rfl

@[simp] theorem jsAdd_fin_fin (a b : ℝ) : jsAdd (fin a) (fin b) = fin (a + b) := rfl

@[simp] theorem jsMul_nan_left : ∀ x, jsMul nan x = nan := by
  intro x; cases x <;> rfl

@[simp] theorem jsMul_nan_right : ∀ x, jsMul x nan = nan := by
  intro x; cases x <;> rfl

@[simp] theorem jsMul_fin_fin (a b : ℝ) : jsMul (fin a) (fin b) = fin (a * b) := rfl

/-- Dividing anything by (finite) zero yields NaN in this model. -/
@[simp] theorem jsDiv_fin_zero : ∀ x, jsDiv x (fin 0) = nan := by
  intro x; cases x with
  | nan => rfl
  | neginf => rfl
  | fin a => simp [jsDiv]

@[simp] theorem jsGt_nan_left : ∀ x, jsGt nan x = false := by
  intro x; cases x <;> rfl

@[simp] theorem jsGt_nan_right : ∀ x, jsGt x nan = false := by
  intro x; cases x <;> rfl

@[simp] theorem jsSqrt_nan : jsSqrt nan = nan := rfl

@[simp] theorem jsMin_nan_right : ∀ x, jsMin x nan = nan := by
  intro x; cases x <;> rfl

@[simp] theorem jsMin_nan_left : ∀ x, jsMin nan x = nan := by
  intro x; cases x <;> rfl

@[simp] theorem jsFloor_nan : jsFloor nan = nan := rfl

@[simp] theorem jsSqrt_fin_zero : jsSqrt (fin 0) = fin 0 := by
  simp [jsSqrt]

end JSVal

/-! ### Claim theorems -/

/-- C10: the Camelot table has no entry for the key string `"B"`, so a
correlation scan selecting B major falls through to the `'8B'` default
(C major's alias); among the 12 canonical pitch-class names, `"B"` is
the only one whose major-key lookup misses the table. -/
theorem camelot_B_major_falls_through_to_8B :
    camelotLookup "B" = none ∧
    camelotFor "B" Scale.major = "8B" ∧
    keyNames.filter (fun n => (camelotLookup n).isNone) = ["B"] := by
  refine ⟨rfl, rfl, ?_⟩
  rfl

/-- C1 (counterexample): a perfectly regular click track at the true
tempo 70 BPM sampled at 44100 Hz has all inter-peak intervals equal to
`60·44100/70 = 37800` samples, which exceeds
`maxInterval = ⌊60·44100/80⌋ = 33075`; such intervals are skipped
before any vote is cast, so the histogram weight at bin 140 is 0, not
the claimed non-zero half weight. -/
theorem bpm_histogram_70bpm_has_zero_weight_at_140 :
    histLookup (buildBpmHistogram 44100 [37800, 37800, 37800]) 140 = 0 := by
  have hstep : histStep 44100 [] 37800 = [] := by
    unfold histStep
    rw [if_neg]
    unfold minIntervalFor maxIntervalFor
    norm_num
  simp only [buildBpmHistogram, List.foldl_cons, List.foldl_nil, hstep]
  rfl

/-- C1 (amended): intervals outside `[minInterval, maxInterval]` are
discarded outright — the histogram only ever counts intervals whose
implied tempo already lies in (roughly) [80, 175] BPM, and the
half-weight half- and double-tempo votes exist only for those; e.g. an
exact 80 BPM interval at 44100 Hz leaves half weight at bin 160. -/
theorem bpm_histogram_folds_only_in_range_intervals :
    (∀ (sr : ℕ) (intervals : List ℤ),
      buildBpmHistogram sr intervals =
        buildBpmHistogram sr (intervals.filter (fun iv =>
          decide ((minIntervalFor sr : ℤ) ≤ iv ∧ iv ≤ (maxIntervalFor sr : ℤ))))) ∧
    histLookup (buildBpmHistogram 44100 [33075]) 160 = 1 / 2 := by
  constructor
  · intro sr intervals
    unfold buildBpmHistogram
    generalize ([] : List (ℤ × ℚ)) = h
    induction intervals generalizing h with
    | nil => rfl
    | cons iv t ih =>
        by_cases hin : (minIntervalFor sr : ℤ) ≤ iv ∧ iv ≤ (maxIntervalFor sr : ℤ)
        · simp only [List.filter_cons, decide_eq_true_eq, hin, decide_True, if_true,
            List.foldl_cons]
          exact ih _
        · simp only [List.filter_cons, decide_eq_true_eq, hin, decide_False,
            Bool.false_eq_true, if_false, List.foldl_cons]
          have hstep : histStep sr h iv = h := by
            unfold histStep
            rw [if_neg hin]
          rw [hstep]
          exact ih _
  · have hstep : histStep 44100 [] 33075 = [(80, 1), (160, 1 / 2)] := by
      unfold histStep
      rw [if_pos (by norm_num [minIntervalFor, maxIntervalFor])]
      norm_num [jsRoundQ, minBPM, maxBPM, histAdd]
    simp only [buildBpmHistogram, List.foldl_cons, List.foldl_nil, hstep]
    norm_num [histLookup, List.find?]

/-- C3 (counterexample): for a 5-sample buffer and pixel width 2,
`samplesPerSegment = ⌊5/2⌋ = 2` and the two segments span `[0, 2)` and
`[2, 4)`: the trailing remainder sample, index 4, lies in neither
segment's span, contradicting the claim that min-clamping folds the
remainder into the last segment. -/
theorem waveform_remainder_sample_uncovered :
    ¬(segStart 5 2 0 ≤ 4 ∧ 4 < segEnd 5 2 0) ∧
    ¬(segStart 5 2 1 ≤ 4 ∧ 4 < segEnd 5 2 1) := by
  decide

/-- C3 (amended): every segment `pixel < canvasWidth` spans exactly
`⌊length/canvasWidth⌋` samples — the min-clamp never fires — and every
sample covered by some segment has index below
`canvasWidth·⌊length/canvasWidth⌋`, so the trailing remainder samples
are covered by no segment at all. -/
theorem waveform_segment_spans (len cw pixel : ℕ) (hp : pixel < cw) :
    segEnd len cw pixel = segStart len cw pixel + len / cw ∧
    ∀ s, segStart len cw pixel ≤ s → s < segEnd len cw pixel → s < cw * (len / cw) := by
  have hmul : (pixel + 1) * (len / cw) ≤ cw * (len / cw) :=
    Nat.mul_le_mul_right _ hp
  have hcw : cw * (len / cw) ≤ len := by
    rw [Nat.mul_comm]
    exact Nat.div_mul_le_self len cw
  have hle : segStart len cw pixel + len / cw ≤ len := by
    calc segStart len cw pixel + len / cw = (pixel + 1) * (len / cw) := by
          unfold segStart; ring
    _ ≤ cw * (len / cw) := hmul
    _ ≤ len := hcw
  constructor
  · unfold segEnd
    exact Nat.min_eq_left hle
  · intro s _ hs2
    have hlt : s < segStart len cw pixel + len / cw := by
      have := Nat.min_le_left (segStart len cw pixel + len / cw) len
      unfold segEnd at hs2
      omega
    have hexp : (pixel + 1) * (len / cw) = pixel * (len / cw) + len / cw :=
      Nat.succ_mul _ _
    unfold segStart at hlt
    omega

theorem waveform_segment_spans_witness :
    (1 : ℕ) < 2 ∧ segEnd 5 2 1 = segStart 5 2 1 + 5 / 2 ∧ (3 : ℕ) < 2 * (5 / 2) :=
  ⟨by decide, (waveform_segment_spans 5 2 1 (by decide)).1,
    (waveform_segment_spans 5 2 1 (by decide)).2 3 (by decide) (by decide)⟩

/-- C4: `detectBPM` always returns an integer in `[80, 175]` (the final
defensive clamp), and returns exactly the default 120 whenever fewer
than 2 onset peaks were detected. -/
theorem detectBPM_range_and_insufficient_peaks_default (buf : SampleBuffer) :
    (80 ≤ detectBPM buf ∧ detectBPM buf ≤ 175) ∧
    ((detectPeaks buf).length < 2 → detectBPM buf = 120) := by
  constructor
  · by_cases h : (detectPeaks buf).length < 2
    · have h120 : detectBPM buf = 120 := by
        unfold detectBPM
        rw [if_pos h]
      rw [h120]
      norm_num
    · have hval : detectBPM buf =
          max 80 (min 175 (pickBpm (buildBpmHistogram buf.sampleRate
            (peakIntervals (detectPeaks buf))))) := by
        unfold detectBPM
        rw [if_neg h]
      rw [hval]
      exact ⟨le_max_left _ _, max_le (by norm_num) (min_le_left _ _)⟩
  · intro h
    unfold detectBPM
    rw [if_pos h]

theorem detectBPM_range_and_insufficient_peaks_default_witness :
    (detectPeaks ⟨1, []⟩).length < 2 ∧ detectBPM ⟨1, []⟩ = 120 := by
  have hpeaks : detectPeaks ⟨1, []⟩ = [] := rfl
  have h : (detectPeaks ⟨1, []⟩).length < 2 := by rw [hpeaks]; decide
  exact ⟨h, (detectBPM_range_and_insufficient_peaks_default ⟨1, []⟩).2 h⟩

/-- C8: the `bpm` argument of `detectDownbeat` has no influence on the
result — the detection rule never reads it. -/
theorem detectDownbeat_independent_of_bpm (buf : SampleBuffer) (b1 b2 : ℝ) :
    detectDownbeat buf b1 = detectDownbeat buf b2 := rfl

/-- C7: `detectDownbeat` never returns a negative time, and returns
exactly 0 whenever no window index `i > 0` passes the strong-onset test
`energy[i] > 2·baseline ∧ energy[i] - energy[i-1] > 0.3·baseline`
(in particular when fewer than two windows exist). -/
theorem detectDownbeat_nonneg_and_zero_default (buf : SampleBuffer) (bpm : ℝ) :
    0 ≤ detectDownbeat buf bpm ∧
    ((∀ i, 1 ≤ i → i < (downbeatEnergies buf).length → downbeatCond buf i = false) →
      detectDownbeat buf bpm = 0) := by
  constructor
  · unfold detectDownbeat
    by_cases h : (downbeatEnergies buf).length < 2
    · rw [if_pos h]
    · rw [if_neg h]
      cases hf : (List.range (downbeatEnergies buf).length).find?
          (fun i => decide (0 < i) && downbeatCond buf i) with
      | none => simp
      | some i =>
          simp only []
          positivity
  · intro hall
    unfold detectDownbeat
    by_cases h : (downbeatEnergies buf).length < 2
    · rw [if_pos h]
    · rw [if_neg h]
      have hnone : (List.range (downbeatEnergies buf).length).find?
          (fun i => decide (0 < i) && downbeatCond buf i) = none := by
        rw [List.find?_eq_none]
        intro i hi hcontra
        rw [Bool.and_eq_true, decide_eq_true_eq] at hcontra
        have hilt : i < (downbeatEnergies buf).length := List.mem_range.mp hi
        have hfalse := hall i hcontra.1 hilt
        rw [hfalse] at hcontra
        exact Bool.false_ne_true hcontra.2
      rw [hnone]

theorem detectDownbeat_nonneg_and_zero_default_witness :
    0 ≤ detectDownbeat ⟨1, []⟩ 120 ∧ detectDownbeat ⟨1, []⟩ 120 = 0 := by
  have hlen : (downbeatEnergies ⟨1, []⟩).length = 0 := rfl
  refine ⟨(detectDownbeat_nonneg_and_zero_default ⟨1, []⟩ 120).1,
    (detectDownbeat_nonneg_and_zero_default ⟨1, []⟩ 120).2 ?_⟩
  intro i _ h2
  rw [hlen] at h2
  omega

/-- C6: `analyzeWaveform` returns exactly `canvasWidth` segments for
every buffer and width, and the `i`-th returned segment is the segment
computed for pixel `i` (left-to-right pixel/time order). -/
theorem analyzeWaveform_length_and_order (buf : SampleBuffer) (cw : ℕ) :
    (analyzeWaveform buf cw).length = cw ∧
    ∀ i, i < cw →
      (analyzeWaveform buf cw).get? i = some (segmentForPixel buf cw i) := by
  constructor
  · simp [analyzeWaveform]
  · intro i hi
    simp only [analyzeWaveform, List.get?_eq_getElem?, List.getElem?_map,
      List.getElem?_range hi, Option.map_some']

theorem analyzeWaveform_length_and_order_witness :
    (analyzeWaveform ⟨1, []⟩ 1).length = 1 ∧
    (analyzeWaveform ⟨1, []⟩ 1).get? 0 = some (segmentForPixel ⟨1, []⟩ 1 0) :=
  ⟨(analyzeWaveform_length_and_order ⟨1, []⟩ 1).1,
    (analyzeWaveform_length_and_order ⟨1, []⟩ 1).2 0 (by decide)⟩

/-- C2 (failing input): a 1-sample buffer analysed at pixel width 2 has
`samplesPerSegment = ⌊1/2⌋ = 0`, so every segment spans zero samples;
the segment RMS computes `√(0/0) = NaN` and every colour channel and
the brightness of both returned segments is NaN — not a value in
[0,255] (resp. [0,1]) as the claim requires. -/
theorem analyzeWaveform_nan_on_buffer_shorter_than_width :
    analyzeWaveform ⟨44100, [0]⟩ 2 =
      [⟨JSVal.nan, JSVal.nan, JSVal.nan, JSVal.nan⟩,
       ⟨JSVal.nan, JSVal.nan, JSVal.nan, JSVal.nan⟩] := by
  have hrange : List.range 2 = [0, 1] := rfl
  have hseg : ∀ p : ℕ, segmentForPixel ⟨44100, [0]⟩ 2 p =
      ⟨JSVal.nan, JSVal.nan, JSVal.nan, JSVal.nan⟩ := by
    intro p
    have hs : segStart 1 2 p = 0 := by simp [segStart]
    have he : segEnd 1 2 p = 0 := by simp [segEnd, hs]
    have hrms : segRMS ⟨44100, [0]⟩ 2 p = JSVal.nan := by
      unfold segRMS
      simp only [List.length_cons, List.length_nil, hs, he]
      norm_num
    unfold segmentForPixel
    simp only [List.length_cons, List.length_nil, hs, he]
    rw [if_pos (by norm_num)]
    unfold segBrightness
    rw [hrms]
    simp
  rw [analyzeWaveform, hrange]
  simp [hseg]

/-- One unfolding step of the `performFFT` write loop. -/
theorem performFFTAux_succ (s : List ℝ) (m : ℕ) :
    performFFTAux s (m + 1) =
      if 0 < m ∧ 2 * m < s.length then
        ((performFFTAux s m).set m (fftMag s m)).set (s.length - m) (fftMag s m)
      else (performFFTAux s m).set m (fftMag s m) := by
  unfold performFFTAux
  rw [List.range_succ, List.foldl_append, List.foldl_cons, List.foldl_nil]

/-- The write loop preserves the spectrum length. -/
theorem performFFTAux_length (s : List ℝ) (m : ℕ) :
    (performFFTAux s m).length = s.length := by
  induction m with
  | zero => simp [performFFTAux]
  | succ m ih =>
      rw [performFFTAux_succ]
      by_cases hg : 0 < m ∧ 2 * m < s.length
      · rw [if_pos hg]
        simp [ih]
      · rw [if_neg hg]
        simp [ih]

/-- Contents of the spectrum array after the first `m` iterations of
the `performFFT` loop: bins below `m` hold their own magnitude, mirror
targets `N-k` (for `0 < k < N/2`, `k < m`) hold the magnitude of bin
`N-j`, and everything else still holds the initial 0. -/
theorem performFFTAux_get (s : List ℝ) (m : ℕ) (hm : m ≤ (s.length + 1) / 2)
    (j : ℕ) (hj : j < s.length) :
    (performFFTAux s m)[j]? = some (
      if j < m then fftMag s j
      else if 0 < s.length - j ∧ s.length - j < m ∧ 2 * (s.length - j) < s.length
      then fftMag s (s.length - j)
      else 0) := by
  induction m with
  | zero =>
      rw [show performFFTAux s 0 = List.replicate s.length 0 from rfl]
      rw [List.getElem?_replicate, if_pos hj]
      have h1 : ¬(j < 0) := by omega
      have h2 : ¬(0 < s.length - j ∧ s.length - j < 0 ∧ 2 * (s.length - j) < s.length) := by
        omega
      rw [if_neg h1, if_neg h2]
  | succ m ih =>
      have hm' : m ≤ (s.length + 1) / 2 := by omega
      have hmN : m < s.length := by omega
      have hlenP : (performFFTAux s m).length = s.length := performFFTAux_length s m
      have hlen1 : ((performFFTAux s m).set m (fftMag s m)).length = s.length := by
        simp [hlenP]
      rw [performFFTAux_succ]
      by_cases hg : 0 < m ∧ 2 * m < s.length
      · rw [if_pos hg]
        by_cases hjm : j = s.length - m
        · have hNj : s.length - j = m := by omega
          have hge : ¬(j < m + 1) := by omega
          have hcond : 0 < s.length - j ∧ s.length - j < m + 1 ∧
              2 * (s.length - j) < s.length := by omega
          rw [hjm, List.getElem?_set_self (by omega : s.length - m < _ )]
          rw [← hjm, if_neg hge, if_pos hcond, hNj]
        · rw [List.getElem?_set_ne (fun h => hjm h.symm)]
          by_cases hjm2 : j = m
          · rw [hjm2, List.getElem?_set_self (by omega : m < _)]
            rw [if_pos (by omega : m < m + 1)]
          · rw [List.getElem?_set_ne (fun h => hjm2 h.symm), ih hm']
            have hnm : s.length - j ≠ m := by omega
            by_cases hd : j < m
            · rw [if_pos hd, if_pos (by omega : j < m + 1)]
            · rw [if_neg hd, if_neg (by omega : ¬(j < m + 1))]
              by_cases hc : 0 < s.length - j ∧ s.length - j < m ∧
                  2 * (s.length - j) < s.length
              · rw [if_pos hc, if_pos (by omega :
                  0 < s.length - j ∧ s.length - j < m + 1 ∧ 2 * (s.length - j) < s.length)]
              · rw [if_neg hc, if_neg (by omega :
                  ¬(0 < s.length - j ∧ s.length - j < m + 1 ∧
                    2 * (s.length - j) < s.length))]
      · rw [if_neg hg]
        by_cases hjm2 : j = m
        · rw [hjm2, List.getElem?_set_self (by omega : m < _)]
          rw [if_pos (by omega : m < m + 1)]
        · rw [List.getElem?_set_ne (fun h => hjm2 h.symm), ih hm']
          have hng : ¬(0 < m) ∨ ¬(2 * m < s.length) := by
            rcases Classical.em (0 < m) with h0 | h0
            · right; intro h2; exact hg ⟨h0, h2⟩
            · left; exact h0
          by_cases hd : j < m
          · rw [if_pos hd, if_pos (by omega : j < m + 1)]
          · rw [if_neg hd, if_neg (by omega : ¬(j < m + 1))]
            have hnm : s.length - j ≠ m ∨ ¬(2 * (s.length - j) < s.length) ∨
                ¬(0 < s.length - j) := by omega
            by_cases hc : 0 < s.length - j ∧ s.length - j < m ∧
                2 * (s.length - j) < s.length
            · rw [if_pos hc, if_pos (by omega :
                0 < s.length - j ∧ s.length - j < m + 1 ∧ 2 * (s.length - j) < s.length)]
            · rw [if_neg hc, if_neg (by omega :
                ¬(0 < s.length - j ∧ s.length - j < m + 1 ∧
                  2 * (s.length - j) < s.length))]

/-- C9: for a real frame of even length `N`, the spectrum returned by
`performFFT` is mirror-symmetric: the magnitude stored at every index
`1 ≤ k ≤ N-1` equals the one stored at index `N-k`. -/
theorem performFFT_mirror (s : List ℝ) (k : ℕ) (heven : s.length % 2 = 0)
    (hk1 : 1 ≤ k) (hk2 : k ≤ s.length - 1) :
    (performFFT s)[k]? = (performFFT s)[s.length - k]? := by
  have hN : 1 ≤ s.length := by omega
  have hmfin : (s.length + 1) / 2 ≤ (s.length + 1) / 2 := le_refl _
  have hkN : k < s.length := by omega
  have hNkN : s.length - k < s.length := by omega
  rw [show performFFT s = performFFTAux s ((s.length + 1) / 2) from rfl]
  rw [performFFTAux_get s _ hmfin k hkN, performFFTAux_get s _ hmfin (s.length - k) hNkN]
  rcases Nat.lt_trichotomy (2 * k) s.length with hlt | heq | hgt
  · have h1 : k < (s.length + 1) / 2 := by omega
    have h2 : ¬(s.length - k < (s.length + 1) / 2) := by omega
    have h3 : s.length - (s.length - k) = k := by omega
    rw [if_pos h1, if_neg h2, if_pos (by omega :
      0 < s.length - (s.length - k) ∧ s.length - (s.length - k) < (s.length + 1) / 2 ∧
        2 * (s.length - (s.length - k)) < s.length), h3]
  · have hA : ¬(k < (s.length + 1) / 2) := by omega
    have hB : ¬(0 < s.length - k ∧ s.length - k < (s.length + 1) / 2 ∧
        2 * (s.length - k) < s.length) := by omega
    have hC : ¬(s.length - k < (s.length + 1) / 2) := by omega
    have hD : ¬(0 < s.length - (s.length - k) ∧
        s.length - (s.length - k) < (s.length + 1) / 2 ∧
        2 * (s.length - (s.length - k)) < s.length) := by omega
    rw [if_neg hA, if_neg hB, if_neg hC, if_neg hD]
  · have h1 : ¬(k < (s.length + 1) / 2) := by omega
    have h2 : s.length - k < (s.length + 1) / 2 := by omega
    rw [if_neg h1, if_pos (by omega :
      0 < s.length - k ∧ s.length - k < (s.length + 1) / 2 ∧
        2 * (s.length - k) < s.length), if_pos h2]

theorem performFFT_mirror_witness :
    ([(1 : ℝ), 0, 0, 0].length % 2 = 0 ∧ 1 ≤ 1 ∧ 1 ≤ [(1 : ℝ), 0, 0, 0].length - 1) ∧
    (performFFT [(1 : ℝ), 0, 0, 0])[1]? = (performFFT [(1 : ℝ), 0, 0, 0])[4 - 1]? := by
  refine ⟨⟨by decide, by decide, by decide⟩, ?_⟩
  exact performFFT_mirror [(1 : ℝ), 0, 0, 0] 1 (by decide) (by decide) (by decide)

/-- Summing finite zeros with `jsAdd` stays `fin 0`. -/
theorem foldl_jsAdd_fin_zero {α : Type} (l : List α) (g : α → JSVal)
    (hg : ∀ x ∈ l, g x = JSVal.fin 0) :
    l.foldl (fun acc x => jsAdd acc (g x)) (JSVal.fin 0) = JSVal.fin 0 := by
  induction l with
  | nil => rfl
  | cons x t ih =>
      rw [List.foldl_cons, hg x (List.mem_cons_self x t)]
      rw [show jsAdd (JSVal.fin 0) (JSVal.fin 0) = JSVal.fin 0 by simp]
      exact ih (fun y hy => hg y (List.mem_cons_of_mem x hy))

/-- A `jsAdd` fold over a non-empty list of NaN contributions is NaN,
whatever the accumulator. -/
theorem foldl_jsAdd_nan {α : Type} (l : List α) (g : α → JSVal)
    (hg : ∀ x ∈ l, g x = JSVal.nan) (a : JSVal) (hl : l ≠ []) :
    l.foldl (fun acc x => jsAdd acc (g x)) a = JSVal.nan := by
  induction l generalizing a with
  | nil => exact absurd rfl hl
  | cons x t ih =>
      rw [List.foldl_cons, hg x (List.mem_cons_self x t), JSVal.jsAdd_nan_right]
      cases t with
      | nil => rfl
      | cons y u =>
          exact ih (fun z hz => hg z (List.mem_cons_of_mem x hz)) JSVal.nan
            (List.cons_ne_nil y u)

/-- A fold whose step fixes every state on the given list returns its
initial state. -/
theorem foldl_fixed_of_step_id {α β : Type} (l : List α) (f : β → α → β) :
    ∀ init : β, (∀ b x, x ∈ l → f b x = b) → l.foldl f init = init := by
  induction l with
  | nil => intro init _; rfl
  | cons x t ih =>
      intro init h
      rw [List.foldl_cons, h init x (List.mem_cons_self x t)]
      exact ih init (fun b y hy => h b y (List.mem_cons_of_mem x hy))

@[simp] theorem JSVal.jsDiv_fin_fin (a b : ℝ) :
    jsDiv (JSVal.fin a) (JSVal.fin b) = if b = 0 then JSVal.nan else JSVal.fin (a / b) := rfl

@[simp] theorem JSVal.jsDiv_nan_right : ∀ x, jsDiv x JSVal.nan = JSVal.nan := by
  intro x; cases x <;> rfl

/-- The RMS energy of an all-zero frame is 0 — or NaN for the empty
frame (zero-length division). -/
theorem frameEnergy_zero_or_nan (fr : List ℝ) (h : ∀ x ∈ fr, x = 0) :
    frameEnergy fr = JSVal.fin 0 ∨ frameEnergy fr = JSVal.nan := by
  have hsum : (fr.map (fun x => x * x)).sum = 0 := by
    apply List.sum_eq_zero
    intro y hy
    rw [List.mem_map] at hy
    obtain ⟨x, hx, rfl⟩ := hy
    rw [h x hx]; ring
  unfold frameEnergy
  rw [hsum]
  by_cases hm : ((fr.length : ℕ) : ℝ) = 0
  · right
    rw [JSVal.jsDiv_fin_fin, if_pos hm, JSVal.jsSqrt_nan]
  · left
    rw [JSVal.jsDiv_fin_fin, if_neg hm, zero_div, JSVal.jsSqrt_fin_zero]

/-- A `jsAdd` fold of contributions that are each 0 or NaN, from an
accumulator that is 0 or NaN, is itself 0 or NaN. -/
theorem foldl_jsAdd_fin_zero_or_nan {α : Type} (l : List α) (g : α → JSVal)
    (hg : ∀ x ∈ l, g x = JSVal.fin 0 ∨ g x = JSVal.nan) :
    ∀ a, a = JSVal.fin 0 ∨ a = JSVal.nan →
      l.foldl (fun acc x => jsAdd acc (g x)) a = JSVal.fin 0 ∨
        l.foldl (fun acc x => jsAdd acc (g x)) a = JSVal.nan := by
  induction l with
  | nil => intro a ha; exact ha
  | cons x t ih =>
      intro a ha
      rw [List.foldl_cons]
      have hstep : jsAdd a (g x) = JSVal.fin 0 ∨ jsAdd a (g x) = JSVal.nan := by
        rcases hg x (List.mem_cons_self x t) with h1 | h1 <;> rcases ha with h2 | h2 <;>
          rw [h1, h2] <;> simp
      exact ih (fun y hy => hg y (List.mem_cons_of_mem x hy)) _ hstep

/-- On a buffer whose samples are all zero, every frame is all zero. -/
theorem keyFrames_all_zero (buf : SampleBuffer) (h : ∀ x ∈ buf.samples, x = 0) :
    ∀ fr ∈ keyFrames buf, ∀ x ∈ fr, x = 0 := by
  intro fr hfr x hx
  unfold keyFrames at hfr
  rw [List.mem_map] at hfr
  obtain ⟨i, _, rfl⟩ := hfr
  exact h x (List.drop_subset _ _ (List.take_subset _ _ hx))

/-- `detectKey` on any all-zero buffer, for any behaviour of the
external chroma extractor: all frame energies vanish, the
energy-weighted chroma profile divides by zero into NaN, every
correlation is NaN, no candidate ever beats the `-∞` initial maximum,
and the initial `(C, major)` state survives to the Camelot mapping. -/
theorem detectKey_default_of_zero_samples (extract : List ℝ → ExtractResult)
    (buf : SampleBuffer) (h : ∀ x ∈ buf.samples, x = 0) :
    detectKey extract buf = ⟨"C", Scale.major, "8B"⟩ := by
  have henergy : ∀ e ∈ keyEnergyFrames buf, e = JSVal.fin 0 ∨ e = JSVal.nan := by
    intro e he
    unfold keyEnergyFrames at he
    rw [List.mem_map] at he
    obtain ⟨fr, hfr, rfl⟩ := he
    exact frameEnergy_zero_or_nan fr (keyFrames_all_zero buf h fr hfr)
  have hcf_le : (keyChromaFrames extract buf).length ≤ (keyEnergyFrames buf).length := by
    unfold keyChromaFrames keyEnergyFrames
    rw [List.length_map]
    exact List.length_filterMap_le _ _
  have htot : keyTotalEnergy extract buf = JSVal.fin 0 ∨
      keyTotalEnergy extract buf = JSVal.nan := by
    unfold keyTotalEnergy
    apply foldl_jsAdd_fin_zero_or_nan
    · intro i hi
      rw [List.mem_range] at hi
      have hilt : i < (keyEnergyFrames buf).length := lt_of_lt_of_le hi hcf_le
      unfold jsGet
      rw [List.get?_eq_getElem?, List.getElem?_eq_getElem hilt, Option.getD_some]
      exact henergy _ (List.getElem_mem hilt)
    · left; rfl
  have hwc : ∀ w ∈ keyWeightedChroma extract buf, w = JSVal.nan := by
    intro w hw
    unfold keyWeightedChroma at hw
    rw [List.mem_map] at hw
    obtain ⟨j, _, rfl⟩ := hw
    rcases htot with ht | ht <;> rw [ht]
    · exact JSVal.jsDiv_fin_zero _
    · exact JSVal.jsDiv_nan_right _
  have hlen12 : (keyWeightedChroma extract buf).length = 12 := by
    unfold keyWeightedChroma
    rw [List.length_map, List.length_range]
  have hsum : keyChromaSum extract buf = JSVal.nan := by
    unfold keyChromaSum
    have hne : keyWeightedChroma extract buf ≠ [] := by
      intro hnil
      rw [hnil] at hlen12
      exact absurd hlen12 (by decide)
    exact foldl_jsAdd_nan _ id hwc _ hne
  have hncEq : keyNormalizedChroma extract buf = keyWeightedChroma extract buf := by
    unfold keyNormalizedChroma
    rw [hsum]
    simp
  have hcorr : ∀ (profile : List ℝ) (off : ℕ),
      keyCorrelation extract buf profile off = JSVal.nan := by
    intro profile off
    unfold keyCorrelation
    apply foldl_jsAdd_nan _ _ _ _ (by decide : List.range 12 ≠ [])
    intro i _
    have hidx : (i + off) % 12 < 12 := Nat.mod_lt _ (by norm_num)
    have hlen : (keyNormalizedChroma extract buf).length = 12 := by
      rw [hncEq]; exact hlen12
    have hget : jsGet (keyNormalizedChroma extract buf) ((i + off) % 12) = JSVal.nan := by
      rw [hncEq]
      unfold jsGet
      have hlt : (i + off) % 12 < (keyWeightedChroma extract buf).length := by
        rw [hlen12]; exact hidx
      rw [List.get?_eq_getElem?, List.getElem?_eq_getElem hlt, Option.getD_some]
      exact hwc _ (List.getElem_mem hlt)
    rw [hget, JSVal.jsMul_nan_left]
  have hscan : keyScan extract buf = (JSVal.neginf, "C", Scale.major) := by
    unfold keyScan
    apply foldl_fixed_of_step_id
    intro b x _
    simp [hcorr]
  unfold detectKey
  by_cases h0 : (keyChromaFrames extract buf).length = 0
  · rw [if_pos h0]
  · rw [if_neg h0, hscan]
    rfl

/-- C5: the Key Estimator returns exactly `{C, major, 8B}` on every
all-zero buffer — both when the buffer is too short to yield a frame
(the no-chroma-frames early return) and when frames are processed but
all have zero energy (the correlation scan never updates its initial
C-major state) — regardless of what the external chroma extractor
does. -/
theorem detectKey_zero_buffer_returns_C_major_8B
    (extract : List ℝ → ExtractResult) (sr n : ℕ) :
    detectKey extract ⟨sr, List.replicate n 0⟩ = ⟨"C", Scale.major, "8B"⟩ :=
  detectKey_default_of_zero_samples extract ⟨sr, List.replicate n 0⟩
    (fun _ hx => List.eq_of_mem_replicate hx)
